import Mathlib

/-!
Shallow embedding of `src/networksecurity/components/model_trainer.py`
(repository Utsv31/Network_Security).

The file embeds, faithfully to the Python source:

* the module-level MLFLOW credential check and environment write-back;
* the hardcoded candidate model table and hyperparameter grid;
* the best-model selection expression of `ModelTrainer.train_model`
  (`max` over the report values, then `list.index` into the keys);
* the metric computation / tracking / persistence tail of `train_model`;
* `ModelTrainer.track_mlflow` as a pure description of the tracking run
  it opens (run name, tags, metrics, model-logging event);
* `ModelTrainer.initiate_model_trainer` with its array split and its
  try/except wrapping into `NetworkSecurityException`.

Collaborators that are part of the repository but outside the single
source file (`evaluate_models`, `get_classification_score`,
`load_numpy_array_data`, `save_object`, `NetworkSecurityException`,
`ModelTrainerConfig`) are modelled from the specification where a claim
depends on them; each such definition carries a doc comment saying so.
Machine reals (sklearn scores, metric values) are embedded as `ℚ`.
-/

namespace NetworkSecurity

/-! ## Module-level credential loading (model_trainer.py lines 24-35)

The process environment after `load_dotenv()` is embedded as a partial
map `String → Option String`; `os.getenv` is application of that map.
-/

/-- Python truthiness of an `Optional[str]` value: `None` and the empty
string are falsy, every other string is truthy.  This is what
`all([mlflow_uri, mlflow_user, mlflow_pass])` tests elementwise. -/
def pyTruthy : Option String → Bool
  | none => false
  | some s => s != ""

def uriKey : String := "MLFLOW_TRACKING_URI"

def userKey : String := "MLFLOW_TRACKING_USERNAME"

def passKey : String := "MLFLOW_TRACKING_PASSWORD"

def credKeys : List String := [uriKey, userKey, passKey]

/-- The message of the `EnvironmentError` raised at module load. -/
def mlflowErrMsg : String :=
  "Missing one or more required MLFLOW environment variables in your .env file."

/-- One `os.environ[k] = v` assignment applied to the environment map. -/
def setEnvVar (env : String → Option String) (k v : String) :
    String → Option String :=
  fun q => if q = k then some v else env q

/-- The condition under which the module-level check passes, i.e.
`all([mlflow_uri, mlflow_user, mlflow_pass])` in the source. -/
def credCheckPasses (env : String → Option String) : Bool :=
  pyTruthy (env uriKey) && pyTruthy (env userKey) && pyTruthy (env passKey)

/-- Result of a successful module load: the environment after the three
write-backs, together with the list of `os.environ` writes performed, in
program order. -/
structure ModuleLoadResult where
  env : String → Option String
  writes : List (String × String)

/-- Embedding of the module-level code of model_trainer.py lines 26-35:
read the three credentials with `os.getenv`, raise `EnvironmentError`
unless all three are truthy, then write each value back into
`os.environ` under its own name. -/
def moduleLoad (env : String → Option String) :
    Except String ModuleLoadResult :=
  let u := (env uriKey).getD ""
  let n := (env userKey).getD ""
  let p := (env passKey).getD ""
  if credCheckPasses env then
    Except.ok
      { env := setEnvVar (setEnvVar (setEnvVar env uriKey u) userKey n) passKey p
        writes := [(uriKey, u), (userKey, n), (passKey, p)] }
  else
    Except.error mlflowErrMsg

/-! ## Candidate models and hyperparameter grids (train_model lines 48-73) -/

/-- Keys of the `models` dict of `train_model`, in declaration order. -/
def modelsKeys : List String :=
  ["Random Forest", "Decision Tree", "Gradient Boosting",
   "Logistic Regression", "AdaBoost"]

/-- A hyperparameter value occurring in the `params` dict: a string
choice, a rational (Python float embedded as `ℚ`) or an integer. -/
inductive HyperValue where
  | s (v : String)
  | q (v : ℚ)
  | n (v : Nat)
deriving DecidableEq, Repr

/-- The `params` dict of `train_model`, in declaration order: model name
to a grid mapping hyperparameter name to its list of candidate values. -/
def params : List (String × List (String × List HyperValue)) :=
  [("Decision Tree",
      [("criterion", [HyperValue.s "gini", HyperValue.s "entropy",
                      HyperValue.s "log_loss"])]),
   ("Random Forest",
      [("n_estimators", [HyperValue.n 8, HyperValue.n 16, HyperValue.n 32,
                         HyperValue.n 128, HyperValue.n 256])]),
   ("Gradient Boosting",
      [("learning_rate", [HyperValue.q (1/10), HyperValue.q (1/100),
                          HyperValue.q (5/100), HyperValue.q (1/1000)]),
       ("subsample", [HyperValue.q (6/10), HyperValue.q (7/10),
                      HyperValue.q (75/100), HyperValue.q (85/100),
                      HyperValue.q (9/10)]),
       ("n_estimators", [HyperValue.n 8, HyperValue.n 16, HyperValue.n 32,
                         HyperValue.n 64, HyperValue.n 128, HyperValue.n 256])]),
   ("Logistic Regression", []),
   ("AdaBoost",
      [("learning_rate", [HyperValue.q (1/10), HyperValue.q (1/100),
                          HyperValue.q (1/1000)]),
       ("n_estimators", [HyperValue.n 8, HyperValue.n 16, HyperValue.n 32,
                         HyperValue.n 64, HyperValue.n 128, HyperValue.n 256])])]

/-- Keys of the `params` dict, in declaration order. -/
def paramsKeys : List String := params.map Prod.fst

/-! ## Best-model selection (train_model lines 81-84)

The evaluation report returned by `evaluate_models` is a Python dict,
embedded as an association list in its insertion order.  The selection
expression of the source is

  best_model_score = max(model_report.values())
  best_model_name = list(model_report.keys())[
      list(model_report.values()).index(best_model_score)]
-/

/-- Python `max` over a list (raises on empty, hence `Option`). -/
def pyMax : List ℚ → Option ℚ
  | [] => none
  | x :: xs => some (xs.foldl max x)

/-- Python `list.index`: index of the first occurrence of `v`.  On a
list not containing `v`, Python raises; the returned length value is
then out of range and never used by the source. -/
def pyIndex (v : ℚ) : List ℚ → Nat
  | [] => 0
  | x :: xs => if x = v then 0 else pyIndex v xs + 1

/-- The best-model-name selection expression of `train_model`. -/
def best_model_name (report : List (String × ℚ)) : Option String :=
  match pyMax (report.map Prod.snd) with
  | none => none
  | some best => (report.map Prod.fst).get? (pyIndex best (report.map Prod.snd))

/-- Modelled from the spec: `evaluate_models` (in
`networksecurity/utils/main_utils/utils.py`, outside `src/`) fits each
candidate over its grid and returns the report dict mapping each model
name to its test-set score, one entry per candidate in the candidate
set's declaration order.  The achieved scores are abstracted by the
function `testScore`. -/
def evaluate_models (testScore : String → ℚ) : List (String × ℚ) :=
  modelsKeys.map (fun k => (k, testScore k))

/-! ## Metric bundles, artifacts, configuration -/

/-- Modelled from the spec: the classification metric bundle returned by
`get_classification_score` (outside `src/`): f1, precision and recall of
one data split. -/
structure ClassificationMetricArtifact where
  f1_score : ℚ
  precision_score : ℚ
  recall_score : ℚ
deriving DecidableEq, Repr

/-- Modelled from the spec: the `ModelTrainerArtifact` record (entity
module, outside `src/`): path of the serialized model plus the train and
test metric bundles.  This is what `train_model` returns. -/
structure ModelTrainerArtifact where
  trained_model_file_path : String
  train_metric_artifact : ClassificationMetricArtifact
  test_metric_artifact : ClassificationMetricArtifact
deriving DecidableEq, Repr

/-- Modelled from the spec: the `ModelTrainerConfig` (outside `src/`);
only its `trained_model_file_path` is used by `train_model`. -/
structure ModelTrainerConfig where
  trained_model_file_path : String
deriving DecidableEq, Repr

/-- A value passed to `save_object`: either the `NetworkModel` composite
(preprocessor paired with the best model) or the bare best model.
Fitted sklearn estimators and the loaded preprocessor are opaque to this
file and are embedded as `String` identifiers. -/
inductive SavedValue where
  | composite (preprocessor model : String)
  | bareModel (model : String)
deriving DecidableEq, Repr

/-- The fixed convenience path of the second `save_object` call. -/
def finalModelPath : String := "final_model/model.pkl"

/-! ## Tracking (track_mlflow, lines 113-136) -/

/-- One observable mlflow call made inside the run. -/
inductive MlflowEvent where
  | setTag (key value : String)
  | logMetric (key : String) (value : ℚ)
  | logModel (artifactPath : String) (registeredModelName : Option String)
deriving DecidableEq, Repr

/-- The tracking run opened by `track_mlflow`: its `run_name` and the
mlflow calls it makes, in program order. -/
structure RunLog where
  runName : String
  events : List MlflowEvent
deriving DecidableEq, Repr

/-- Embedding of `ModelTrainer.track_mlflow`.  `scheme` is
`urlparse(mlflow.get_tracking_uri()).scheme` (the tracking backend's URI
scheme); the metric bundles are read but not modified. -/
def track_mlflow (bestName : String) (scheme : String)
    (trainMetrics testMetrics : ClassificationMetricArtifact) : RunLog :=
  { runName := bestName ++ "_experiment"
    events :=
      [MlflowEvent.setTag "model_name" bestName,
       MlflowEvent.setTag "author" "Utsav",
       MlflowEvent.logMetric "train_f1_score" trainMetrics.f1_score,
       MlflowEvent.logMetric "train_precision" trainMetrics.precision_score,
       MlflowEvent.logMetric "train_recall" trainMetrics.recall_score,
       MlflowEvent.logMetric "test_f1_score" testMetrics.f1_score,
       MlflowEvent.logMetric "test_precision" testMetrics.precision_score,
       MlflowEvent.logMetric "test_recall" testMetrics.recall_score,
       if scheme != "file" then MlflowEvent.logModel "model" (some bestName)
       else MlflowEvent.logModel "model" none] }

def isSetTag : MlflowEvent → Bool
  | MlflowEvent.setTag _ _ => true
  | _ => false

def isLogMetric : MlflowEvent → Bool
  | MlflowEvent.logMetric _ _ => true
  | _ => false

/-! ## The train_model pipeline (lines 47-111) -/

/-- The external collaborators `train_model` calls, abstracted:
`testScore` drives the spec-modelled `evaluate_models`; `predict` is the
best fitted model's prediction on a feature matrix;
`classificationScore` is `get_classification_score` (true labels, then
predicted labels); `preprocessor` is the object loaded from the
transformation artifact; `scheme` is the tracking backend's URI
scheme. -/
structure TrainEnv where
  testScore : String → ℚ
  predict : String → List (List ℚ) → List ℚ
  classificationScore : List ℚ → List ℚ → ClassificationMetricArtifact
  preprocessor : String
  scheme : String

/-- Result of `train_model`: the returned artifact, the `save_object`
calls performed (path and value, in program order) and the tracking run
opened. -/
structure TrainResult where
  artifact : ModelTrainerArtifact
  saves : List (String × SavedValue)
  runLog : RunLog
deriving DecidableEq, Repr

/-- Embedding of `ModelTrainer.train_model` from the evaluation report
onward: select the best model, compute train and test metrics, track in
mlflow, serialize the composite `NetworkModel` to the configured path
and the bare best model to `final_model/model.pkl`, and return the
artifact.  `none` models the `ValueError` Python would raise on an empty
report (unreachable for the hardcoded candidate set). -/
def train_model (cfg : ModelTrainerConfig) (env : TrainEnv)
    (X_train : List (List ℚ)) (y_train : List ℚ)
    (X_test : List (List ℚ)) (y_test : List ℚ) : Option TrainResult :=
  let report := evaluate_models env.testScore
  match best_model_name report with
  | none => none
  | some bestName =>
    let y_train_pred := env.predict bestName X_train
    let classification_train_metric := env.classificationScore y_train y_train_pred
    let y_test_pred := env.predict bestName X_test
    let classification_test_metric := env.classificationScore y_test y_test_pred
    let runLog := track_mlflow bestName env.scheme
      classification_train_metric classification_test_metric
    some
      { artifact :=
          { trained_model_file_path := cfg.trained_model_file_path
            train_metric_artifact := classification_train_metric
            test_metric_artifact := classification_test_metric }
        saves :=
          [(cfg.trained_model_file_path,
            SavedValue.composite env.preprocessor bestName),
           (finalModelPath, SavedValue.bareModel bestName)]
        runLog := runLog }

/-- Specification variant of `train_model` with the `track_mlflow` call
omitted, used to state that tracking is side-effect only with respect to
the returned artifact and the serialized files. -/
def train_model_sans_tracking (cfg : ModelTrainerConfig) (env : TrainEnv)
    (X_train : List (List ℚ)) (y_train : List ℚ)
    (X_test : List (List ℚ)) (y_test : List ℚ) :
    Option (ModelTrainerArtifact × List (String × SavedValue)) :=
  let report := evaluate_models env.testScore
  match best_model_name report with
  | none => none
  | some bestName =>
    let y_train_pred := env.predict bestName X_train
    let classification_train_metric := env.classificationScore y_train y_train_pred
    let y_test_pred := env.predict bestName X_test
    let classification_test_metric := env.classificationScore y_test y_test_pred
    some
      ({ trained_model_file_path := cfg.trained_model_file_path
         train_metric_artifact := classification_train_metric
         test_metric_artifact := classification_test_metric },
       [(cfg.trained_model_file_path,
         SavedValue.composite env.preprocessor bestName),
        (finalModelPath, SavedValue.bareModel bestName)])

/-! ## initiate_model_trainer (lines 138-151) -/

/-- `arr[:, :-1]`: every row with its final column dropped. -/
def splitFeatures (arr : List (List ℚ)) : List (List ℚ) :=
  arr.map List.dropLast

/-- `arr[:, -1]`: the final column.  Embedded with `getLastD 0`; numpy
would raise on a zero-column array, so claims about the split carry a
nonempty-row premise. -/
def splitLabels (arr : List (List ℚ)) : List ℚ :=
  arr.map (fun row => row.getLastD 0)

/-- Modelled from the spec: `NetworkSecurityException` (outside `src/`)
wraps the originating exception together with the invocation context
extracted from `sys`. -/
structure NetworkSecurityException where
  errorMessage : String
  context : String
deriving DecidableEq, Repr

/-- The invocation-context information the source passes as `sys`. -/
def sysContext : String := "sys"

/-- Embedding of `ModelTrainer.initiate_model_trainer`: the two array
loads and the whole `train_model` stage (fitting, selection, metrics,
tracking, serialization) may each raise, modelled by `Except String`
inputs; the surrounding try/except wraps any raised exception into
`NetworkSecurityException` with the original message and the `sys`
context, and re-raises. -/
def initiate_model_trainer
    (loadTrain loadTest : Except String (List (List ℚ)))
    (trainStage : List (List ℚ) → List ℚ → List (List ℚ) → List ℚ →
      Except String ModelTrainerArtifact) :
    Except NetworkSecurityException ModelTrainerArtifact :=
  match (do
      let train_arr ← loadTrain
      let test_arr ← loadTest
      trainStage (splitFeatures train_arr) (splitLabels train_arr)
        (splitFeatures test_arr) (splitLabels test_arr) :
      Except String ModelTrainerArtifact) with
  | Except.ok a => Except.ok a
  | Except.error e => Except.error ⟨e, sysContext⟩

/-! ## Concrete sample inputs used to instantiate the theorems -/

/-- An environment in which all three credentials are present but the
URI is the empty string. -/
def envEmptyUri : String → Option String :=
  fun k =>
    if k = uriKey then some ""
    else if k = userKey then some "alice"
    else if k = passKey then some "secret"
    else none

/-- An environment in which all three credentials are present and
non-empty. -/
def envSample : String → Option String :=
  fun k =>
    if k = uriKey then some "https://dagshub.example/mlflow"
    else if k = userKey then some "alice"
    else if k = passKey then some "secret"
    else none

def metricSample : ClassificationMetricArtifact := ⟨1, 1, 1⟩

def artifactSample : ModelTrainerArtifact :=
  ⟨"Artifacts/model_trainer/model.pkl", metricSample, metricSample⟩

def cfgSample : ModelTrainerConfig := ⟨"Artifacts/model_trainer/model.pkl"⟩

def envTrainSample : TrainEnv :=
  { testScore := fun _ => 1
    predict := fun _ _ => []
    classificationScore := fun _ _ => metricSample
    preprocessor := "preprocessor"
    scheme := "https" }

def arrSample : List (List ℚ) := [[1, 2, 3], [4, 5, 6]]

/-- A score function giving two candidates the identical top score. -/
def scoreTie : String → ℚ :=
  fun k => if k = "Decision Tree" then 1 else if k = "AdaBoost" then 1 else 0

/-! ## Helper lemmas about `pyMax` and `pyIndex` -/

theorem foldl_max_le_self (xs : List ℚ) (a : ℚ) : a ≤ xs.foldl max a := by
  induction xs generalizing a with
  | nil => exact le_refl a
  | cons x xs ih => exact le_trans (le_max_left a x) (ih (max a x))

theorem le_foldl_max_of_mem {xs : List ℚ} {x : ℚ} (h : x ∈ xs) (a : ℚ) :
    x ≤ xs.foldl max a := by
  induction xs generalizing a with
  | nil => cases h
  | cons y ys ih =>
    simp only [List.foldl_cons]
    rcases List.mem_cons.mp h with rfl | h'
    · exact le_trans (le_max_right a x) (foldl_max_le_self ys (max a x))
    · exact ih h' (max a y)

theorem foldl_max_mem (xs : List ℚ) (a : ℚ) :
    xs.foldl max a = a ∨ xs.foldl max a ∈ xs := by
  induction xs generalizing a with
  | nil => exact Or.inl rfl
  | cons x xs ih =>
    simp only [List.foldl_cons, List.mem_cons]
    rcases ih (max a x) with h | h
    · rcases max_choice a x with hm | hm
      · exact Or.inl (h.trans hm)
      · exact Or.inr (Or.inl (h.trans hm))
    · exact Or.inr (Or.inr h)

theorem pyMax_spec {l : List ℚ} {m : ℚ} (h : pyMax l = some m) :
    m ∈ l ∧ ∀ x ∈ l, x ≤ m := by
  cases l with
  | nil => cases h
  | cons x xs =>
    have hm : m = xs.foldl max x := by
      simpa [pyMax] using h.symm
    constructor
    · rcases foldl_max_mem xs x with h0 | h0
      · rw [hm, h0]; exact List.mem_cons_self x xs
      · rw [hm]; exact List.mem_cons_of_mem x h0
    · intro y hy
      rcases List.mem_cons.mp hy with rfl | hy'
      · rw [hm]; exact foldl_max_le_self xs y
      · rw [hm]; exact le_foldl_max_of_mem hy' x

theorem pyMax_of_ne_nil {l : List ℚ} (h : l ≠ []) : ∃ m, pyMax l = some m := by
  cases l with
  | nil => exact absurd rfl h
  | cons x xs => exact ⟨xs.foldl max x, rfl⟩

theorem pyIndex_get? {v : ℚ} {l : List ℚ} (h : v ∈ l) :
    l.get? (pyIndex v l) = some v := by
  induction l with
  | nil => cases h
  | cons x xs ih =>
    by_cases hx : x = v
    · simp [pyIndex, hx]
    · rcases List.mem_cons.mp h with h' | h'
      · exact absurd h'.symm hx
      · simpa [pyIndex, hx] using ih h'

theorem pyIndex_lt_length {v : ℚ} {l : List ℚ} (h : v ∈ l) :
    pyIndex v l < l.length := by
  induction l with
  | nil => cases h
  | cons x xs ih =>
    by_cases hx : x = v
    · simp [pyIndex, hx]
    · rcases List.mem_cons.mp h with h' | h'
      · exact absurd h'.symm hx
      · simpa [pyIndex, hx] using ih h'

theorem pyIndex_first {v : ℚ} {l : List ℚ} {j : Nat} (hj : j < pyIndex v l)
    {x : ℚ} (hx : l.get? j = some x) : x ≠ v := by
  induction l generalizing j with
  | nil => simp [pyIndex] at hj
  | cons y ys ih =>
    by_cases hy : y = v
    · simp [pyIndex, hy] at hj
    · cases j with
      | zero =>
        have hyx : y = x := by simpa using hx
        exact hyx ▸ hy
      | succ j =>
        have hj' : j < pyIndex v ys := by
          simpa [pyIndex, hy] using hj
        exact ih hj' (by simpa using hx)

/-- Specification of the selection expression of `train_model` on an
arbitrary nonempty report: it returns the name of the first entry whose
score attains the maximum of all recorded scores. -/
theorem best_model_name_spec (report : List (String × ℚ)) (hne : report ≠ []) :
    ∃ (i : Nat) (nm : String) (sc : ℚ),
      i < report.length ∧
      report.get? i = some (nm, sc) ∧
      best_model_name report = some nm ∧
      (∀ p ∈ report, p.2 ≤ sc) ∧
      (∀ j x, j < i → report.get? j = some x → x.2 < sc) := by
  have hs : report.map Prod.snd ≠ [] := by
    simpa using hne
  obtain ⟨m, hm⟩ := pyMax_of_ne_nil hs
  obtain ⟨hmem, hle⟩ := pyMax_spec hm
  have hi : pyIndex m (report.map Prod.snd) < report.length := by
    simpa using pyIndex_lt_length hmem
  obtain ⟨p, hp⟩ : ∃ p, report.get? (pyIndex m (report.map Prod.snd)) = some p :=
    ⟨report.get ⟨_, hi⟩, List.get?_eq_get hi⟩
  have hsnd : p.2 = m := by
    have := pyIndex_get? hmem
    rw [List.get?_map, hp] at this
    simpa using this
  refine ⟨pyIndex m (report.map Prod.snd), p.1, p.2, hi, ?_, ?_, ?_, ?_⟩
  · simpa using hp
  · simp only [best_model_name, hm]
    rw [List.get?_map, hp]
    rfl
  · intro q hq
    rw [hsnd]
    exact hle q.2 (List.mem_map_of_mem Prod.snd hq)
  · intro j x hj hx
    have hxs : (report.map Prod.snd).get? j = some x.2 := by
      rw [List.get?_map, hx]
      rfl
    have hne' : x.2 ≠ m := pyIndex_first hj hxs
    have hxle : x.2 ≤ m := hle x.2 (List.mem_map_of_mem Prod.snd (List.get?_mem hx))
    rw [hsnd]
    exact lt_of_le_of_ne hxle hne'

theorem best_model_name_evaluate_isSome (f : String → ℚ) :
    ∃ nm, best_model_name (evaluate_models f) = some nm := by
  obtain ⟨_, nm, _, _, _, h, _, _⟩ :=
    best_model_name_spec (evaluate_models f) (by simp [evaluate_models, modelsKeys])
  exact ⟨nm, h⟩

/-- `initiate_model_trainer` when the train-array load raises. -/
theorem initiate_err_train (e : String)
    (loadTest : Except String (List (List ℚ)))
    (trainStage : List (List ℚ) → List ℚ → List (List ℚ) → List ℚ →
      Except String ModelTrainerArtifact) :
    initiate_model_trainer (Except.error e) loadTest trainStage =
      Except.error ⟨e, sysContext⟩ := rfl

/-- `initiate_model_trainer` when the test-array load raises. -/
theorem initiate_err_test (A : List (List ℚ)) (e : String)
    (trainStage : List (List ℚ) → List ℚ → List (List ℚ) → List ℚ →
      Except String ModelTrainerArtifact) :
    initiate_model_trainer (Except.ok A) (Except.error e) trainStage =
      Except.error ⟨e, sysContext⟩ := rfl

/-- `initiate_model_trainer` when both loads succeed. -/
theorem initiate_ok_ok (A B : List (List ℚ))
    (trainStage : List (List ℚ) → List ℚ → List (List ℚ) → List ℚ →
      Except String ModelTrainerArtifact) :
    initiate_model_trainer (Except.ok A) (Except.ok B) trainStage =
      match trainStage (splitFeatures A) (splitLabels A)
          (splitFeatures B) (splitLabels B) with
      | Except.ok a => Except.ok a
      | Except.error e => Except.error ⟨e, sysContext⟩ := rfl

/-! ## Claim theorems -/

/-- C1: In fit-and-select (`train_model`), the selected best model name
is the one whose recorded test score in the evaluation report is the
maximum across all candidates, and on a tie the candidate declared first
in the candidate set's declaration order (the position in `modelsKeys`)
is selected: every earlier-declared candidate scores strictly below the
selected one. -/
theorem best_model_selection_first_max (f : String → ℚ) :
    ∃ (i : Nat) (nm : String),
      modelsKeys.get? i = some nm ∧
      best_model_name (evaluate_models f) = some nm ∧
      (∀ k ∈ modelsKeys, f k ≤ f nm) ∧
      (∀ j k, j < i → modelsKeys.get? j = some k → f k < f nm) := by
  obtain ⟨i, nm, sc, hi, hget, hbest, hle, hfirst⟩ :=
    best_model_name_spec (evaluate_models f) (by simp [evaluate_models, modelsKeys])
  have hilt : i < modelsKeys.length := by
    simpa [evaluate_models] using hi
  obtain ⟨k, hk⟩ : ∃ k, modelsKeys.get? i = some k :=
    ⟨modelsKeys.get ⟨i, hilt⟩, List.get?_eq_get hilt⟩
  have hmap : (evaluate_models f).get? i = some (k, f k) := by
    unfold evaluate_models
    rw [List.get?_map, hk]
    rfl
  rw [hget] at hmap
  have h2 := Option.some.inj hmap
  have hknm : k = nm := (congrArg Prod.fst h2).symm
  have hksc : f k = sc := (congrArg Prod.snd h2).symm
  refine ⟨i, nm, hknm ▸ hk, hbest, ?_, ?_⟩
  · intro q hq
    have hqmem : (q, f q) ∈ evaluate_models f := List.mem_map_of_mem _ hq
    have := hle (q, f q) hqmem
    rw [← hknm, hksc]
    exact this
  · intro j q hj hq
    have hmemj : (evaluate_models f).get? j = some (q, f q) := by
      unfold evaluate_models
      rw [List.get?_map, hq]
      rfl
    have := hfirst j (q, f q) hj hmemj
    rw [← hknm, hksc]
    exact this

/-- C1 witness: at a score function giving "Decision Tree" and
"AdaBoost" the identical top score, the theorem applies, and the
selected name is "Decision Tree", declared before "AdaBoost". -/
theorem best_model_selection_first_max_witness :
    (∃ (i : Nat) (nm : String),
      modelsKeys.get? i = some nm ∧
      best_model_name (evaluate_models scoreTie) = some nm ∧
      (∀ k ∈ modelsKeys, scoreTie k ≤ scoreTie nm) ∧
      (∀ j k, j < i → modelsKeys.get? j = some k → scoreTie k < scoreTie nm)) ∧
    best_model_name (evaluate_models scoreTie) = some "Decision Tree" :=
  ⟨best_model_selection_first_max scoreTie, by decide⟩

/-- C7: the key sets of the candidate model dict and of the
hyperparameter grid dict match exactly one-to-one, and the grid entry of
a candidate may be empty (Logistic Regression's is). -/
theorem candidate_grid_keys_match :
    modelsKeys.Perm paramsKeys ∧ modelsKeys.Nodup ∧ paramsKeys.Nodup ∧
    ("Logistic Regression", []) ∈ params := by
  refine ⟨by decide, by decide, by decide, by decide⟩

/-- C2: `initiate_model_trainer` re-raises any stage failure wrapped in
`NetworkSecurityException` carrying the original cause and the `sys`
invocation context; it returns an artifact only when every stage
succeeded (no partial artifact after a failure, no retry). -/
theorem initiate_wraps_failures
    (loadTrain loadTest : Except String (List (List ℚ)))
    (trainStage : List (List ℚ) → List ℚ → List (List ℚ) → List ℚ →
      Except String ModelTrainerArtifact) :
    (∀ a, initiate_model_trainer loadTrain loadTest trainStage = Except.ok a →
      ∃ A B, loadTrain = Except.ok A ∧ loadTest = Except.ok B ∧
        trainStage (splitFeatures A) (splitLabels A)
          (splitFeatures B) (splitLabels B) = Except.ok a) ∧
    (∀ e, loadTrain = Except.error e →
      initiate_model_trainer loadTrain loadTest trainStage =
        Except.error ⟨e, sysContext⟩) ∧
    (∀ A e, loadTrain = Except.ok A → loadTest = Except.error e →
      initiate_model_trainer loadTrain loadTest trainStage =
        Except.error ⟨e, sysContext⟩) ∧
    (∀ A B e, loadTrain = Except.ok A → loadTest = Except.ok B →
      trainStage (splitFeatures A) (splitLabels A)
        (splitFeatures B) (splitLabels B) = Except.error e →
      initiate_model_trainer loadTrain loadTest trainStage =
        Except.error ⟨e, sysContext⟩) := by
  refine ⟨?_, ?_, ?_, ?_⟩
  · intro a ha
    cases hlt : loadTrain with
    | error e =>
      rw [hlt, initiate_err_train] at ha
      simp at ha
    | ok A =>
      cases hle : loadTest with
      | error e =>
        rw [hlt, hle, initiate_err_test] at ha
        simp at ha
      | ok B =>
        rw [hlt, hle, initiate_ok_ok] at ha
        split at ha
        · next b hts =>
          refine ⟨A, B, rfl, rfl, ?_⟩
          rw [hts]
          exact congrArg Except.ok (Except.ok.inj ha)
        · next e hts => simp at ha
  · intro e he
    rw [he, initiate_err_train]
  · intro A e hA he
    rw [hA, he, initiate_err_test]
  · intro A B e hA hB hts
    rw [hA, hB, initiate_ok_ok, hts]

theorem pyTruthy_iff (o : Option String) :
    pyTruthy o = true ↔ ∃ v, o = some v ∧ v ≠ "" := by
  cases o <;> simp [pyTruthy]

theorem moduleLoad_ok_iff (env : String → Option String) :
    (∃ r, moduleLoad env = Except.ok r) ↔ credCheckPasses env = true := by
  unfold moduleLoad
  by_cases h : credCheckPasses env = true <;> simp [h]

theorem credCheckPasses_iff (env : String → Option String) :
    credCheckPasses env = true ↔
      ∀ k ∈ credKeys, ∃ v, env k = some v ∧ v ≠ "" := by
  simp only [credCheckPasses, Bool.and_eq_true, pyTruthy_iff, credKeys,
    List.forall_mem_cons, List.forall_mem_nil]
  tauto

/-- C3 counterexample: in an environment where all three credentials are
present but the tracking URI is the empty string, module load raises the
fatal configuration error, although the claim says that with all three
present no such error is raised. -/
theorem credential_check_counterexample :
    (envEmptyUri uriKey).isSome = true ∧ (envEmptyUri userKey).isSome = true ∧
    (envEmptyUri passKey).isSome = true ∧
    moduleLoad envEmptyUri = Except.error mlflowErrMsg :=
  ⟨rfl, rfl, rfl, rfl⟩

/-- C3 (amended): the module-level check raises the fatal configuration
error exactly when one of the three tracking credentials is absent from
the environment or present with an empty value; when all three are
present and non-empty, no error is raised and loading succeeds. -/
theorem credential_check_amended (env : String → Option String) :
    ((∃ r, moduleLoad env = Except.ok r) ↔
      ∀ k ∈ credKeys, ∃ v, env k = some v ∧ v ≠ "") ∧
    ((¬ ∀ k ∈ credKeys, ∃ v, env k = some v ∧ v ≠ "") →
      moduleLoad env = Except.error mlflowErrMsg) := by
  constructor
  · rw [moduleLoad_ok_iff]
    exact credCheckPasses_iff env
  · intro h
    have hc : ¬ credCheckPasses env = true :=
      fun hc => h ((credCheckPasses_iff env).mp hc)
    unfold moduleLoad
    rw [if_neg hc]

/-- C3 witness: with all three credentials present and non-empty,
module load succeeds. -/
theorem credential_check_amended_witness :
    ∃ r, moduleLoad envSample = Except.ok r :=
  (credential_check_amended envSample).1.mpr (by
    intro k hk
    simp only [credKeys, List.mem_cons, List.not_mem_nil, or_false] at hk
    rcases hk with rfl | rfl | rfl
    · exact ⟨"https://dagshub.example/mlflow", rfl, by decide⟩
    · exact ⟨"alice", rfl, by decide⟩
    · exact ⟨"secret", rfl, by decide⟩)

/-- C10: after the presence check succeeds at module load, the three
credential values read from the environment are written back into the
process-wide environment under their own names: the write list has
exactly the three entries, in program order, and the resulting
environment maps each credential key to the value read. -/
theorem module_load_writes_credentials (env : String → Option String)
    (h : credCheckPasses env = true) :
    ∃ (r : ModuleLoadResult) (u n p : String),
      env uriKey = some u ∧ env userKey = some n ∧ env passKey = some p ∧
      moduleLoad env = Except.ok r ∧
      r.writes = [(uriKey, u), (userKey, n), (passKey, p)] ∧
      r.env uriKey = some u ∧ r.env userKey = some n ∧ r.env passKey = some p := by
  have h3 := (credCheckPasses_iff env).mp h
  obtain ⟨u, hu, -⟩ := h3 uriKey (by simp [credKeys])
  obtain ⟨n, hn, -⟩ := h3 userKey (by simp [credKeys])
  obtain ⟨p, hp, -⟩ := h3 passKey (by simp [credKeys])
  refine ⟨⟨setEnvVar (setEnvVar (setEnvVar env uriKey u) userKey n) passKey p,
           [(uriKey, u), (userKey, n), (passKey, p)]⟩,
          u, n, p, hu, hn, hp, ?_, rfl, rfl, rfl, rfl⟩
  simp only [moduleLoad, hu, hn, hp, Option.getD_some, h, if_true]

/-- C10 witness: the theorem applied to a concrete environment holding
the three credentials. -/
theorem module_load_writes_credentials_witness :
    credCheckPasses envSample = true ∧
    ∃ (r : ModuleLoadResult) (u n p : String),
      envSample uriKey = some u ∧ envSample userKey = some n ∧
      envSample passKey = some p ∧
      moduleLoad envSample = Except.ok r ∧
      r.writes = [(uriKey, u), (userKey, n), (passKey, p)] ∧
      r.env uriKey = some u ∧ r.env userKey = some n ∧ r.env passKey = some p :=
  ⟨by decide, module_load_writes_credentials envSample (by decide)⟩

/-- C2 witness: a failing first stage is re-raised wrapped with its
original message and the `sys` context. -/
theorem initiate_wraps_failures_witness :
    initiate_model_trainer (Except.error "boom") (Except.ok [])
        (fun _ _ _ _ => Except.ok artifactSample) =
      Except.error ⟨"boom", sysContext⟩ :=
  (initiate_wraps_failures (Except.error "boom") (Except.ok [])
    (fun _ _ _ _ => Except.ok artifactSample)).2.1 "boom" rfl

/-- Normal form of `train_model` once the selected name is known. -/
theorem train_model_eq (cfg : ModelTrainerConfig) (env : TrainEnv)
    (X_train : List (List ℚ)) (y_train : List ℚ)
    (X_test : List (List ℚ)) (y_test : List ℚ) (nm : String)
    (hnm : best_model_name (evaluate_models env.testScore) = some nm) :
    train_model cfg env X_train y_train X_test y_test = some
      { artifact :=
          { trained_model_file_path := cfg.trained_model_file_path
            train_metric_artifact :=
              env.classificationScore y_train (env.predict nm X_train)
            test_metric_artifact :=
              env.classificationScore y_test (env.predict nm X_test) }
        saves :=
          [(cfg.trained_model_file_path,
            SavedValue.composite env.preprocessor nm),
           (finalModelPath, SavedValue.bareModel nm)]
        runLog := track_mlflow nm env.scheme
          (env.classificationScore y_train (env.predict nm X_train))
          (env.classificationScore y_test (env.predict nm X_test)) } := by
  simp only [train_model, hnm]

/-- C4: `train_model` serializes exactly two objects: the composite
(preprocessor, best model) pair to the configured trained-model path and
the bare best model to the fixed path `final_model/model.pkl`; when the
configured path differs from the fixed path these are two distinct
files; the returned artifact references the configured path and the two
metric bundles. -/
theorem persist_two_files_and_artifact (cfg : ModelTrainerConfig)
    (env : TrainEnv) (X_train : List (List ℚ)) (y_train : List ℚ)
    (X_test : List (List ℚ)) (y_test : List ℚ) :
    ∃ (r : TrainResult) (bestName : String),
      train_model cfg env X_train y_train X_test y_test = some r ∧
      best_model_name (evaluate_models env.testScore) = some bestName ∧
      r.saves = [(cfg.trained_model_file_path,
                  SavedValue.composite env.preprocessor bestName),
                 (finalModelPath, SavedValue.bareModel bestName)] ∧
      r.saves.length = 2 ∧
      (cfg.trained_model_file_path ≠ finalModelPath →
        (r.saves.map Prod.fst).Nodup) ∧
      r.artifact =
        { trained_model_file_path := cfg.trained_model_file_path
          train_metric_artifact :=
            env.classificationScore y_train (env.predict bestName X_train)
          test_metric_artifact :=
            env.classificationScore y_test (env.predict bestName X_test) } := by
  obtain ⟨nm, hnm⟩ := best_model_name_evaluate_isSome env.testScore
  refine ⟨_, nm, train_model_eq cfg env X_train y_train X_test y_test nm hnm,
    hnm, rfl, rfl, ?_, rfl⟩
  intro hne
  simp [List.nodup_cons, hne]

/-- C4 witness: the theorem applied at a concrete configuration and
training environment. -/
theorem persist_two_files_and_artifact_witness :
    ∃ (r : TrainResult) (bestName : String),
      train_model cfgSample envTrainSample [] [] [] [] = some r ∧
      best_model_name (evaluate_models envTrainSample.testScore) = some bestName ∧
      r.saves = [(cfgSample.trained_model_file_path,
                  SavedValue.composite envTrainSample.preprocessor bestName),
                 (finalModelPath, SavedValue.bareModel bestName)] ∧
      r.saves.length = 2 ∧
      (cfgSample.trained_model_file_path ≠ finalModelPath →
        (r.saves.map Prod.fst).Nodup) ∧
      r.artifact =
        { trained_model_file_path := cfgSample.trained_model_file_path
          train_metric_artifact :=
            envTrainSample.classificationScore [] (envTrainSample.predict bestName [])
          test_metric_artifact :=
            envTrainSample.classificationScore [] (envTrainSample.predict bestName []) } :=
  persist_two_files_and_artifact cfgSample envTrainSample [] [] [] []

/-- `track_mlflow` against a local file store. -/
theorem track_file_store (bn : String)
    (tm te : ClassificationMetricArtifact) :
    track_mlflow bn "file" tm te =
      { runName := bn ++ "_experiment"
        events :=
          [MlflowEvent.setTag "model_name" bn,
           MlflowEvent.setTag "author" "Utsav",
           MlflowEvent.logMetric "train_f1_score" tm.f1_score,
           MlflowEvent.logMetric "train_precision" tm.precision_score,
           MlflowEvent.logMetric "train_recall" tm.recall_score,
           MlflowEvent.logMetric "test_f1_score" te.f1_score,
           MlflowEvent.logMetric "test_precision" te.precision_score,
           MlflowEvent.logMetric "test_recall" te.recall_score,
           MlflowEvent.logModel "model" none] } := rfl

/-- `track_mlflow` against a non-file (remote) store. -/
theorem track_remote_store (bn scheme : String) (h : scheme ≠ "file")
    (tm te : ClassificationMetricArtifact) :
    track_mlflow bn scheme tm te =
      { runName := bn ++ "_experiment"
        events :=
          [MlflowEvent.setTag "model_name" bn,
           MlflowEvent.setTag "author" "Utsav",
           MlflowEvent.logMetric "train_f1_score" tm.f1_score,
           MlflowEvent.logMetric "train_precision" tm.precision_score,
           MlflowEvent.logMetric "train_recall" tm.recall_score,
           MlflowEvent.logMetric "test_f1_score" te.f1_score,
           MlflowEvent.logMetric "test_precision" te.precision_score,
           MlflowEvent.logMetric "test_recall" te.recall_score,
           MlflowEvent.logModel "model" (some bn)] } := by
  unfold track_mlflow
  rw [if_pos (bne_iff_ne.mpr h)]

/-- C5: in log-run (`track_mlflow`) the model is logged under a
registered model name if and only if the tracking backend's URI scheme
is not "file"; in the file case the model is logged with no registered
name. -/
theorem registration_iff_remote_scheme (bn scheme : String)
    (tm te : ClassificationMetricArtifact) :
    ((∃ rn, MlflowEvent.logModel "model" (some rn) ∈
        (track_mlflow bn scheme tm te).events) ↔ scheme ≠ "file") ∧
    (scheme = "file" →
      MlflowEvent.logModel "model" none ∈
        (track_mlflow bn scheme tm te).events) := by
  by_cases h : scheme = "file"
  · subst h
    rw [track_file_store]
    constructor
    · simp
    · intro _
      simp
  · rw [track_remote_store bn scheme h]
    constructor
    · simp [h]
    · intro he
      exact absurd he h

/-- C5 witness: the theorem applied at a remote scheme. -/
theorem registration_iff_remote_scheme_witness :
    ((∃ rn, MlflowEvent.logModel "model" (some rn) ∈
        (track_mlflow "Random Forest" "https" metricSample metricSample).events) ↔
      "https" ≠ "file") ∧
    ("https" = "file" →
      MlflowEvent.logModel "model" none ∈
        (track_mlflow "Random Forest" "https" metricSample metricSample).events) :=
  registration_iff_remote_scheme "Random Forest" "https" metricSample metricSample

/-- C8: every `track_mlflow` run is scoped to the best model's name
(run name is that name suffixed with "_experiment"), records exactly the
two metadata tags (model identity and author) and exactly the six scalar
metrics (train/test f1, precision, recall). -/
theorem run_tags_and_metrics (bn scheme : String)
    (tm te : ClassificationMetricArtifact) :
    (track_mlflow bn scheme tm te).runName = bn ++ "_experiment" ∧
    (track_mlflow bn scheme tm te).events.filter isSetTag =
      [MlflowEvent.setTag "model_name" bn,
       MlflowEvent.setTag "author" "Utsav"] ∧
    ((track_mlflow bn scheme tm te).events.filter isSetTag).length = 2 ∧
    (track_mlflow bn scheme tm te).events.filter isLogMetric =
      [MlflowEvent.logMetric "train_f1_score" tm.f1_score,
       MlflowEvent.logMetric "train_precision" tm.precision_score,
       MlflowEvent.logMetric "train_recall" tm.recall_score,
       MlflowEvent.logMetric "test_f1_score" te.f1_score,
       MlflowEvent.logMetric "test_precision" te.precision_score,
       MlflowEvent.logMetric "test_recall" te.recall_score] ∧
    ((track_mlflow bn scheme tm te).events.filter isLogMetric).length = 6 := by
  by_cases h : scheme = "file"
  · subst h
    rw [track_file_store]
    exact ⟨rfl, rfl, rfl, rfl, rfl⟩
  · rw [track_remote_store bn scheme h]
    exact ⟨rfl, rfl, rfl, rfl, rfl⟩

/-- C8 witness: the theorem applied at concrete inputs. -/
theorem run_tags_and_metrics_witness :
    (track_mlflow "AdaBoost" "file" metricSample metricSample).runName =
      "AdaBoost" ++ "_experiment" ∧
    (track_mlflow "AdaBoost" "file" metricSample metricSample).events.filter
        isSetTag =
      [MlflowEvent.setTag "model_name" "AdaBoost",
       MlflowEvent.setTag "author" "Utsav"] ∧
    ((track_mlflow "AdaBoost" "file" metricSample metricSample).events.filter
        isSetTag).length = 2 ∧
    (track_mlflow "AdaBoost" "file" metricSample metricSample).events.filter
        isLogMetric =
      [MlflowEvent.logMetric "train_f1_score" metricSample.f1_score,
       MlflowEvent.logMetric "train_precision" metricSample.precision_score,
       MlflowEvent.logMetric "train_recall" metricSample.recall_score,
       MlflowEvent.logMetric "test_f1_score" metricSample.f1_score,
       MlflowEvent.logMetric "test_precision" metricSample.precision_score,
       MlflowEvent.logMetric "test_recall" metricSample.recall_score] ∧
    ((track_mlflow "AdaBoost" "file" metricSample metricSample).events.filter
        isLogMetric).length = 6 :=
  run_tags_and_metrics "AdaBoost" "file" metricSample metricSample

/-- C9: log-run is side-effect only with respect to the training
result: the artifact and the serialized files of `train_model` coincide
with those of the variant that never calls `track_mlflow`, and the
returned artifact is unchanged under any change of the tracking
backend's scheme (the only input the tracking call depends on beyond the
already-computed name and metrics). -/
theorem tracking_side_effect_only (cfg : ModelTrainerConfig) (env : TrainEnv)
    (X_train : List (List ℚ)) (y_train : List ℚ)
    (X_test : List (List ℚ)) (y_test : List ℚ) :
    (Option.map (fun r => (r.artifact, r.saves))
        (train_model cfg env X_train y_train X_test y_test) =
      train_model_sans_tracking cfg env X_train y_train X_test y_test) ∧
    (∀ s : String,
      Option.map TrainResult.artifact
          (train_model cfg { env with scheme := s } X_train y_train X_test y_test) =
        Option.map TrainResult.artifact
          (train_model cfg env X_train y_train X_test y_test)) := by
  obtain ⟨ts, pr, cs, pp, sc⟩ := env
  constructor
  · cases h : best_model_name (evaluate_models ts) with
    | none => simp [train_model, train_model_sans_tracking, h]
    | some nm => simp [train_model, train_model_sans_tracking, h]
  · intro s
    cases h : best_model_name (evaluate_models ts) with
    | none => simp [train_model, h]
    | some nm => simp [train_model, h]

/-- C9 witness: the theorem applied at a concrete configuration and
training environment. -/
theorem tracking_side_effect_only_witness :
    (Option.map (fun r => (r.artifact, r.saves))
        (train_model cfgSample envTrainSample [] [] [] []) =
      train_model_sans_tracking cfgSample envTrainSample [] [] [] []) ∧
    (∀ s : String,
      Option.map TrainResult.artifact
          (train_model cfgSample { envTrainSample with scheme := s } [] [] [] []) =
        Option.map TrainResult.artifact
          (train_model cfgSample envTrainSample [] [] [] [])) :=
  tracking_side_effect_only cfgSample envTrainSample [] [] [] []

theorem split_row_spec (arr : List (List ℚ)) (i : Nat) (row : List ℚ)
    (h : arr.get? i = some row) (hne : row ≠ []) :
    (splitFeatures arr).get? i = some row.dropLast ∧
    (splitLabels arr).get? i = some (row.getLastD 0) ∧
    row.dropLast ++ [row.getLastD 0] = row := by
  refine ⟨?_, ?_, ?_⟩
  · unfold splitFeatures
    rw [List.get?_map, h]
    rfl
  · unfold splitLabels
    rw [List.get?_map, h]
    rfl
  · rw [List.getLastD_eq_getLast?, List.getLast?_eq_getLast row hne]
    exact List.dropLast_append_getLast hne

/-- C6: for both the train and the test array, the feature/label split
of `initiate_model_trainer` takes each row's final column as the label
and all preceding columns as the features: row by row, the feature part
followed by the label reassembles the original row. -/
theorem split_final_column (trainArr testArr : List (List ℚ))
    (hTrain : ∀ row ∈ trainArr, row ≠ []) (hTest : ∀ row ∈ testArr, row ≠ []) :
    (∀ i row, trainArr.get? i = some row →
      (splitFeatures trainArr).get? i = some row.dropLast ∧
      (splitLabels trainArr).get? i = some (row.getLastD 0) ∧
      row.dropLast ++ [row.getLastD 0] = row) ∧
    (∀ i row, testArr.get? i = some row →
      (splitFeatures testArr).get? i = some row.dropLast ∧
      (splitLabels testArr).get? i = some (row.getLastD 0) ∧
      row.dropLast ++ [row.getLastD 0] = row) := by
  constructor
  · intro i row h
    exact split_row_spec trainArr i row h (hTrain row (List.get?_mem h))
  · intro i row h
    exact split_row_spec testArr i row h (hTest row (List.get?_mem h))

/-- C6 witness: the theorem applied to a concrete two-row array used as
both train and test array. -/
theorem split_final_column_witness :
    (∀ row ∈ arrSample, row ≠ []) ∧
    ((∀ i row, arrSample.get? i = some row →
      (splitFeatures arrSample).get? i = some row.dropLast ∧
      (splitLabels arrSample).get? i = some (row.getLastD 0) ∧
      row.dropLast ++ [row.getLastD 0] = row) ∧
    (∀ i row, arrSample.get? i = some row →
      (splitFeatures arrSample).get? i = some row.dropLast ∧
      (splitLabels arrSample).get? i = some (row.getLastD 0) ∧
      row.dropLast ++ [row.getLastD 0] = row)) :=
  ⟨by decide, split_final_column arrSample arrSample (by decide) (by decide)⟩

end NetworkSecurity
